import Mathlib

/-!
Verification development for the Moon-Calendar lunisolar engine
(`src/lunisolar-engine.js`).

The engine is shallowly embedded here.  Instants are modelled as `Int`
values: milliseconds since the Unix epoch, exactly the representation JS
`Date` arithmetic uses in the source.  The external astronomy library
(astronomia, imported from a CDN and not part of this repository) is
modelled as an abstract `Ephemeris` capability supplying

  * `truePhaseDateUTC k` — the UTC instant (ms) of the new moon with
    lunation index `k`, i.e. the composite
    `julianDayToDateUTC(moonphase.truePhase(k).jde)` of the source, and
  * `sunLongitudeDeg t` — the raw apparent solar ecliptic longitude in
    degrees at instant `t` (the source converts the library's radians to
    degrees before normalising; we take the degree value as the input).

Everything downstream of those two calls — new-moon enumeration, the
principal-term bisection search, year assembly, leap detection, month
numbering, both conversion directions and the migration preview — is
translated function by function from `src/lunisolar-engine.js`.

JS `Date` UTC calendar arithmetic (`Date.UTC`, `getUTCFullYear`) is
implemented with the standard civil-from-days / days-from-civil integer
algorithms, and JS numeric idioms are made explicit: `%` on numbers is
truncating remainder (`Int.tmod` / `jsModF`), `Math.floor` of an integer
quotient is `Int.fdiv`, and `Math.round` is `⌊x + 1/2⌋` (half towards
`+∞`).
-/

namespace MoonCalendar

/-- One day in milliseconds, the constant `1000*60*60*24` of the source. -/
def dayMs : Int := 86400000

/-- Exact fractions with integer numerator and (positive, by
construction) denominator.  They model the real-valued quantities of
the source (solar longitudes, degree deltas) exactly; every operation
below is plain integer arithmetic, so the kernel can evaluate whole
engine runs. -/
structure Frac where
  num : Int
  den : Int
deriving DecidableEq

/-- Embed an integer as a fraction. -/
def fracOfInt (n : Int) : Frac := ⟨n, 1⟩

/-- Fraction addition. -/
def fadd (a b : Frac) : Frac := ⟨a.num * b.den + b.num * a.den, a.den * b.den⟩

/-- Fraction subtraction. -/
def fsub (a b : Frac) : Frac := ⟨a.num * b.den - b.num * a.den, a.den * b.den⟩

/-- Fraction multiplication. -/
def fmul (a b : Frac) : Frac := ⟨a.num * b.num, a.den * b.den⟩

/-- Fraction division, keeping the denominator positive when both
inputs have positive denominators. -/
def fdivF (a b : Frac) : Frac :=
  if 0 ≤ b.num then ⟨a.num * b.den, a.den * b.num⟩ else ⟨-(a.num * b.den), -(a.den * b.num)⟩

/-- Floor of a fraction with positive denominator. -/
def ffloor (q : Frac) : Int := Int.fdiv q.num q.den

/-- Ceiling of a fraction with positive denominator. -/
def fceil (q : Frac) : Int := -Int.fdiv (-q.num) q.den

/-- Truncation towards zero (JS float-to-int truncation as used by the
`%` operator on numbers). -/
def ftrunc (q : Frac) : Int := if 0 ≤ q.num then ffloor q else fceil q

/-- Value comparison `a < b` for fractions with positive denominators. -/
def fltB (a b : Frac) : Bool := a.num * b.den < b.num * a.den

/-- Value comparison `a ≤ b` for fractions with positive denominators. -/
def fleB (a b : Frac) : Bool := a.num * b.den ≤ b.num * a.den

/-- Absolute value. -/
def fabs (q : Frac) : Frac := ⟨|q.num|, q.den⟩

/-- Value test against zero (`=== 0` in the source). -/
def fIsZero (q : Frac) : Bool := q.num == 0

/-- JS `%` on (possibly fractional) numbers: `a - b * trunc (a / b)`. -/
def jsModF (a b : Frac) : Frac := fsub a (fmul b (fracOfInt (ftrunc (fdivF a b))))

/-- JS `%` on integers: truncating remainder. -/
def jsRem (a b : Int) : Int := Int.tmod a b

/-- JS `Math.round` applied to the exact quotient `a / b` (`b > 0`):
round half towards `+∞`, i.e. `⌊a/b + 1/2⌋ = (2*a + b).fdiv (2*b)`. -/
def jsRoundDiv (a b : Int) : Int := Int.fdiv (2 * a + b) (2 * b)

/-- Day count from civil date (proleptic Gregorian, month `1..12`),
Howard Hinnant's `days_from_civil`; models the JS `Date.UTC` day
computation. -/
def daysFromCivil (y m d : Int) : Int :=
  let y' := y - (if m ≤ 2 then 1 else 0)
  let era := Int.fdiv y' 400
  let yoe := y' - era * 400
  let mp := Int.emod (m + 9) 12
  let doy := Int.fdiv (153 * mp + 2) 5 + d - 1
  let doe := yoe * 365 + Int.fdiv yoe 4 - Int.fdiv yoe 100 + doy
  era * 146097 + doe - 719468

/-- JS `Date.UTC(y, mIdx, d)` (midnight), with `mIdx` the 0-based month
index exactly as in the source. -/
def dateUTCms (y mIdx d : Int) : Int := daysFromCivil y (mIdx + 1) d * 86400000

/-- JS `date.getUTCFullYear()` for an instant in ms, via Hinnant's
`civil_from_days`. -/
def getUTCFullYear (t : Int) : Int :=
  let z := Int.fdiv t 86400000 + 719468
  let era := Int.fdiv z 146097
  let doe := z - era * 146097
  let yoe := Int.fdiv (doe - Int.fdiv doe 1460 + Int.fdiv doe 36524 - Int.fdiv doe 146096) 365
  let y := yoe + era * 400
  let doy := doe - (365 * yoe + Int.fdiv yoe 4 - Int.fdiv yoe 100)
  let mp := Int.fdiv (5 * doy + 2) 153
  let m := mp + (if mp < 10 then 3 else -9)
  if m ≤ 2 then y + 1 else y

/-- The external astronomy capability consumed by the engine (astronomia
via CDN in the source; see the module docstring). -/
structure Ephemeris where
  truePhaseDateUTC : Int → Int
  sunLongitudeDeg : Int → Frac

/-- The options object threaded through the engine.  `yearStartRule`
defaults to `"monthContainingEquinox"` (the `Object.assign` default of
`computeLunisolarYear`); `strategy` models the optional
`options.strategy` of `previewMigrateAffirmations` (`none` = absent,
defaulted to `"remapToSameLunarIndex"` by `||`). -/
structure Options where
  yearStartRule : String := "monthContainingEquinox"
  strategy : Option String := none
deriving DecidableEq

/-- A lunar month record as assembled by `computeLunisolarYear`.  The
fields `isLeap`, `monthNumber`, `displayMonthNumber` are added later in
the JS (undefined before), so they carry defaults here; `!!undefined`
is `false`, matching the `isLeap := false` default. -/
structure LunarMonth where
  start : Int
  «end» : Int
  lengthDays : Int
  containsPrincipalTerm : Bool
  isLeapCandidate : Bool
  isLeap : Bool := false
  monthNumber : Int := 0
  displayMonthNumber : Int := 0
deriving DecidableEq

/-- The object returned by `computeLunisolarYear`. -/
structure LunisolarYear where
  lunarYearStart : Int
  months : List LunarMonth
  equinox : Int
  leapIndex : Option Nat
  lunarYear : Int
deriving DecidableEq

/-- The object returned by `toLunisolar`. -/
structure LunisolarDate where
  lunarYear : Int
  monthIndex : Nat
  monthNumber : Int
  monthDay : Int
  isLeap : Bool
  lunarYearStart : Int
deriving DecidableEq

/-- `sunEclipticLongitudeDegrees`: the raw ephemeris longitude
normalised by `((deg % 360) + 360) % 360` (JS float `%`). -/
def sunEclipticLongitudeDegrees (e : Ephemeris) (t : Int) : Frac :=
  jsModF (fadd (jsModF (e.sunLongitudeDeg t) (fracOfInt 360)) (fracOfInt 360)) (fracOfInt 360)

/-- The `delta` helper of `findPrincipalTermBetween`: `deg - target`
normalised into `[-180, 180)`.  The two `while` loops of the source
(`d += 360` / `d -= 360`) compute exactly this closed form. -/
def delta (deg target : Frac) : Frac :=
  fsub (fsub deg target)
    (fmul (fracOfInt 360)
      (fracOfInt (ffloor (fdivF (fadd (fsub deg target) (fracOfInt 180)) (fracOfInt 360)))))

/-- The 40-iteration bisection refinement inside
`findPrincipalTermBetween`.  `low`/`high` are `getTime()` values;
`mid = Math.round((low+high)/2)` is `(low+high+1).fdiv 2` (half up). -/
def bisect (e : Ephemeris) (target startDeg : Frac) : Int → Int → Nat → Int
  | low, high, 0 => Int.fdiv (low + high + 1) 2
  | low, high, fuel + 1 =>
    let mid := Int.fdiv (low + high + 1) 2
    let dm := delta (sunEclipticLongitudeDegrees e mid) target
    if fltB (fabs dm) ⟨1, 1000000⟩ then mid
    else if fleB (fmul (delta startDeg target) dm) (fracOfInt 0) then
      bisect e target startDeg low mid fuel
    else bisect e target startDeg mid high fuel

/-- The `for (let k = 0; k < 12; k++)` loop of
`findPrincipalTermBetween`, searching the 12 principal-term targets in
order; `remaining` counts the targets still to try. -/
def termSearch (e : Ephemeris) (startD endD : Int) (startDeg endDeg : Frac) :
    Nat → Nat → Option Int
  | _, 0 => none
  | k, remaining + 1 =>
    if fIsZero (delta startDeg (fracOfInt (30 * k))) then some startD
    else if fltB (fmul (delta startDeg (fracOfInt (30 * k)))
        (delta endDeg (fracOfInt (30 * k)))) (fracOfInt 0) then
      some (bisect e (fracOfInt (30 * k)) startDeg startD endD 40)
    else termSearch e startD endD startDeg endDeg (k + 1) remaining

/-- `findPrincipalTermBetween(startDateUTC, endDateUTC)`. -/
def findPrincipalTermBetween (e : Ephemeris) (startD endD : Int) : Option Int :=
  termSearch e startD endD
    (sunEclipticLongitudeDegrees e startD) (sunEclipticLongitudeDegrees e endD) 0 12

/-- `monthContainsPrincipalTerm`: `term !== null`. -/
def monthContainsPrincipalTerm (e : Ephemeris) (a b : Int) : Bool :=
  (findPrincipalTermBetween e a b).isSome

/-- The `while (true)` lunation loop of `computeNewMoonsBetween`:
collect `truePhase` instants inside `[startD, endD]`, break once past
`endD` or once the `k > 1000000` guard trips.  The fuel is chosen so
the zero-fuel branch is unreachable. -/
def newMoonLoop (e : Ephemeris) (startD endD : Int) : Int → Nat → List Int
  | _, 0 => []
  | k, fuel + 1 =>
    let d := e.truePhaseDateUTC k
    let found := if startD ≤ d ∧ d ≤ endD then [d] else []
    if endD < d then found
    else if 1000000 < k + 1 then found
    else found ++ newMoonLoop e startD endD (k + 1) fuel

/-- `computeNewMoonsBetween(startDateUTC, endDateUTC)`: estimate a
starting lunation index `k ≈ (year - 2000) * 12.3685 - 2`, enumerate,
then sort ascending (the final `newMoons.sort((a,b) => a-b)`). -/
def computeNewMoonsBetween (e : Ephemeris) (startD endD : Int) : List Int :=
  let startYear := getUTCFullYear startD
  let k0 : Int := Int.fdiv ((startYear - 2000) * 123685) 10000 - 2
  let fuel := (1000001 - k0).toNat + 1
  List.insertionSort (· ≤ ·) (newMoonLoop e startD endD k0 fuel)

/-- The `for (i = 0; i < newMoons.length - 1; i++)` search for the
lunar month interval containing the equinox. -/
def findContainingIdx : List Int → Int → Nat → Option Nat
  | n1 :: n2 :: rest, eq, i =>
    if n1 ≤ eq ∧ eq < n2 then some i else findContainingIdx (n2 :: rest) eq (i + 1)
  | _, _, _ => none

/-- The search for the first new moon at or after the equinox. -/
def findFirstAtOrAfter : List Int → Int → Nat → Option Nat
  | [], _, _ => none
  | n :: rest, eq, i =>
    if eq ≤ n then some i else findFirstAtOrAfter rest eq (i + 1)

/-- The month record pushed by one iteration of the assembly loop:
`{ start, end, lengthDays: Math.round((end-start)/day), containsPrincipalTerm,
isLeapCandidate: !containsTerm }`. -/
def mkMonth (e : Ephemeris) (n1 n2 : Int) : LunarMonth :=
  { start := n1, «end» := n2, lengthDays := jsRoundDiv (n2 - n1) 86400000,
    containsPrincipalTerm := monthContainsPrincipalTerm e n1 n2,
    isLeapCandidate := !monthContainsPrincipalTerm e n1 n2 }

/-- The month-assembly `while` loop of `computeLunisolarYear`, operating
on the tail of the (sorted) new-moon list starting at the year-start
index.  `cnt` is `months.length` before the iteration, `accDays` the
accumulated `lengthDays`.  Loop condition
`i < newMoons.length - 1 && months.length < 15`; after pushing a month
the loop breaks when `months.length >= 12 && accumulatedDays >= 354`
and `accumulatedDays >= 370`. -/
def assemble (e : Ephemeris) : List Int → Nat → Int → List LunarMonth
  | n1 :: n2 :: rest, cnt, accDays =>
    if cnt < 15 then
      if 12 ≤ cnt + 1 ∧ 354 ≤ accDays + jsRoundDiv (n2 - n1) 86400000 ∧
          370 ≤ accDays + jsRoundDiv (n2 - n1) 86400000 then
        [mkMonth e n1 n2]
      else
        mkMonth e n1 n2 ::
          assemble e (n2 :: rest) (cnt + 1) (accDays + jsRoundDiv (n2 - n1) 86400000)
    else []
  | _, _, _ => []

/-- Marking `months[leapIndex].isLeap = true` (`j` is the index of the
head of the remaining list). -/
def markLeap : List LunarMonth → Nat → Option Nat → List LunarMonth
  | [], _, _ => []
  | m :: rest, j, li =>
    (if li = some j then { m with isLeap := true } else m) :: markLeap rest (j + 1) li

/-- The numbering loop: assign `monthNumber`/`displayMonthNumber` from
the running counter, incrementing it only after a non-leap month. -/
def numberMonths : List LunarMonth → Int → List LunarMonth
  | [], _ => []
  | m :: rest, n =>
    { m with monthNumber := n, displayMonthNumber := n } ::
      numberMonths rest (if m.isLeap then n else n + 1)

/-- `computeLunisolarYear(referenceDateUTC, options)`.  Errors model JS
`throw`s; the final `[]` case models the `TypeError` JS raises reading
`months[0].start` of an empty array. -/
def computeLunisolarYear (e : Ephemeris) (referenceDate : Int) (opts : Options) :
    Except String LunisolarYear :=
  let year := getUTCFullYear referenceDate
  let windowStart := dateUTCms (year - 1) 11 1
  let windowEnd := dateUTCms (year + 1) 3 30
  let newMoons := computeNewMoonsBetween e windowStart windowEnd
  if newMoons.length < 12 then
    .error "Insufficient new moon data computed; expand window or check astronomia imports."
  else
    let eqStart := dateUTCms year 2 18
    let eqEnd := dateUTCms year 2 22
    let equinox := (findPrincipalTermBetween e eqStart eqEnd).getD (dateUTCms year 2 20)
    let containing := findContainingIdx newMoons equinox 0
    let after := findFirstAtOrAfter newMoons equinox 0
    let lunarYearStartIndex :=
      if opts.yearStartRule = "firstNewMoonAfterEquinox" then
        match after with
        | some i => some i
        | none => containing
      else
        match containing with
        | some i => some i
        | none => after
    match lunarYearStartIndex with
    | none => .error "Could not determine lunar year start index."
    | some a =>
      let rawMonths := assemble e (newMoons.drop a) 0 0
      let leapIndex := List.findIdx? (fun m => !m.containsPrincipalTerm) rawMonths
      let numbered := numberMonths (markLeap rawMonths 0 leapIndex) 1
      match numbered with
      | [] => .error "TypeError: Cannot read properties of undefined (reading 'start')"
      | m0 :: rest =>
        .ok { lunarYearStart := m0.start, months := m0 :: rest, equinox := equinox,
              leapIndex := leapIndex, lunarYear := getUTCFullYear m0.start }

/-- The bracket search of `toLunisolar`:
`dateUTC >= m.start && dateUTC < m.end`, first hit wins, returning the
0-based month index together with the month. -/
def findBracketIdx : List LunarMonth → Int → Nat → Option (Nat × LunarMonth)
  | [], _, _ => none
  | m :: rest, d, i =>
    if m.start ≤ d ∧ d < m.«end» then some (i, m) else findBracketIdx rest d (i + 1)

/-- The candidate-year loop of `toLunisolar`: for each candidate year,
build the lunisolar year for its March-20 reference (a thrown build is
skipped by the `try`/`catch`) and return the coordinates of the first
bracketing month found. -/
def tryCandidates (e : Ephemeris) (opts : Options) (d : Int) : List Int → Option LunisolarDate
  | [] => none
  | y :: ys =>
    match computeLunisolarYear e (dateUTCms y 2 20) opts with
    | .error _ => tryCandidates e opts d ys
    | .ok ly =>
      match findBracketIdx ly.months d 0 with
      | some (i, m) =>
        some { lunarYear := ly.lunarYear, monthIndex := i,
               monthNumber := m.displayMonthNumber,
               monthDay := Int.fdiv (d - m.start) 86400000 + 1,
               isLeap := m.isLeap, lunarYearStart := ly.lunarYearStart }
      | none => tryCandidates e opts d ys

/-- `toLunisolar(dateUTC, options)`: candidate years
`[year - 1, year, year + 1]`, then the 28-day-cycle fallback (whose own
`computeLunisolarYear` call is not guarded by a `try`). -/
def toLunisolar (e : Ephemeris) (d : Int) (opts : Options) : Except String LunisolarDate :=
  let year := getUTCFullYear d
  match tryCandidates e opts d [year - 1, year, year + 1] with
  | some r => .ok r
  | none =>
    match computeLunisolarYear e (dateUTCms year 2 20) opts with
    | .error msg => .error msg
    | .ok ly =>
      let daysSinceStart := Int.fdiv (d - ly.lunarYearStart) 86400000
      let moonNumber := Int.fdiv daysSinceStart 28 + 1
      let moonDay := jsRem (jsRem daysSinceStart 28 + 28) 28 + 1
      .ok { lunarYear := ly.lunarYear, monthIndex := 0, monthNumber := moonNumber,
            monthDay := moonDay, isLeap := false, lunarYearStart := ly.lunarYearStart }

/-- The first-match search over months used by `fromLunisolar` and the
migration remap (`for` loop with `break`). -/
def firstMatch (p : LunarMonth → Bool) : List LunarMonth → Option LunarMonth
  | [] => none
  | m :: rest => if p m then some m else firstMatch p rest

/-- `fromLunisolar(lunarYear, monthNumber, monthDay, isLeap, options)`.
On a match: `month.start + (monthDay - 1) * 24*60*60*1000`; with no
match the source falls back to `ly.months[0].start` (the `[]` case
models the `TypeError` of indexing an empty array). -/
def fromLunisolar (e : Ephemeris) (lunarYear monthNumber monthDay : Int) (isLeap : Bool)
    (opts : Options) : Except String Int :=
  match computeLunisolarYear e (dateUTCms lunarYear 2 20) opts with
  | .error msg => .error msg
  | .ok ly =>
    match firstMatch (fun m => m.displayMonthNumber == monthNumber && m.isLeap == isLeap)
        ly.months with
    | some m => .ok (m.start + (monthDay - 1) * 86400000)
    | none =>
      match ly.months with
      | [] => .error "TypeError: Cannot read properties of undefined (reading 'start')"
      | m0 :: _ => .ok m0.start

/-- An affirmation event as consumed by the migration preview (`text`
is never read by the engine and is omitted; `id` is `item.id || null`). -/
structure AffEvent where
  id : Option String
  date : Int
deriving DecidableEq

/-- A successfully migrated item of the preview. -/
structure MigratedItem where
  id : Option String
  originalDate : Int
  proposedDate : Int
  lunarInfo : LunisolarDate
deriving DecidableEq

/-- A per-event error entry of the preview. -/
structure MigrateError where
  id : Option String
  error : String
deriving DecidableEq

/-- The body of the `forEach` of `previewMigrateAffirmations` for one
event: anything thrown inside is caught and turned into an error entry
by the caller. -/
def processOne (e : Ephemeris) (opts : Options) (strategy : String) (item : AffEvent) :
    Except String MigratedItem :=
  match toLunisolar e item.date opts with
  | .error msg => .error msg
  | .ok oldLunar =>
    if strategy = "keepAbsolute" then
      .ok { id := item.id, originalDate := item.date, proposedDate := item.date,
            lunarInfo := oldLunar }
    else
      match computeLunisolarYear e (dateUTCms oldLunar.lunarYear 2 20) opts with
      | .error msg => .error msg
      | .ok newLunarYear =>
        let exact := firstMatch
          (fun m => m.displayMonthNumber == oldLunar.monthNumber && m.isLeap == oldLunar.isLeap)
          newLunarYear.months
        let matched :=
          match exact with
          | some m => some m
          | none => firstMatch (fun m => m.displayMonthNumber == oldLunar.monthNumber)
              newLunarYear.months
        match matched with
        | none =>
          .ok { id := item.id, originalDate := item.date, proposedDate := item.date,
                lunarInfo := oldLunar }
        | some m =>
          .ok { id := item.id, originalDate := item.date,
                proposedDate := m.start + (oldLunar.monthDay - 1) * 86400000,
                lunarInfo := oldLunar }

/-- `previewMigrateAffirmations(affirmationsArray, options)`: each event
is processed independently; a caught failure appends to `errors`, a
success to `migrated`, and the `forEach` always continues. -/
def previewMigrateAffirmations (e : Ephemeris) (items : List AffEvent) (opts : Options) :
    List MigratedItem × List MigrateError :=
  let strategy := opts.strategy.getD "remapToSameLunarIndex"
  items.foldl
    (fun acc item =>
      match processOne e opts strategy item with
      | .ok mi => (acc.1 ++ [mi], acc.2)
      | .error msg => (acc.1, acc.2 ++ [{ id := item.id, error := msg }]))
    ([], [])

end MoonCalendar

namespace MoonCalendar

/-! ## Concrete instances used by the verification

The abstract `Ephemeris` capability is instantiated with explicit,
astronomically plausible data streams.  Synodic months of 29.5 days
(`2548800000` ms) match the real mean lunation to within 45 minutes;
the epoch `947116800000` is the real new moon of 2000-01-06.  Constant
solar longitudes make every principal-term test resolve immediately
(`30` is itself a principal-term target, so every interval reports a
term; `15` reports none), which lets whole pipelines be evaluated by
the kernel. -/

/-- The engine's default options object. -/
def defaultOptions : Options := {}

/-- Unwrap a build result, with an inert dummy for the error case (used
only to state closed facts about builds already known to succeed). -/
def okOr (x : Except String LunisolarYear) : LunisolarYear :=
  match x with
  | .ok ly => ly
  | .error _ =>
    { lunarYearStart := 0, months := [], equinox := 0, leapIndex := none, lunarYear := 0 }

/-- Whether an engine call succeeded. -/
def isOkB {α : Type} (x : Except String α) : Bool :=
  match x with
  | .ok _ => true
  | .error _ => false

/-- Whether the candidate year `y` fails to bracket the instant `d`:
its build either throws or contains no month interval holding `d`.
This is exactly the condition under which `toLunisolar`'s candidate
loop moves past `y`. -/
def candidateMissB (e : Ephemeris) (opts : Options) (d y : Int) : Bool :=
  match computeLunisolarYear e (dateUTCms y 2 20) opts with
  | .error _ => true
  | .ok ly => (findBracketIdx ly.months d 0).isNone

/-- Ceiling of the exact quotient `a / b` for `b > 0`, via
`⌈a/b⌉ = -⌊-a/b⌋`. -/
def ceilDiv (a b : Int) : Int := -Int.fdiv (-a) b

/-- New moons every 29.5 days from the real 2000-01-06 conjunction;
constant solar longitude 30° (every month contains a principal term,
so no leap month ever occurs). -/
def eConst30 : Ephemeris :=
  { truePhaseDateUTC := fun k => 947116800000 + k * 2548800000,
    sunLongitudeDeg := fun _ => fracOfInt 30 }

/-- Same new moons as `eConst30`, but the solar longitude jumps from
30° to 15° at `1711756800000` (the start of the second month of the
2024 build), so the first assembled month contains a principal term
and the second does not: the leap month lands at index 1. -/
def eStep : Ephemeris :=
  { truePhaseDateUTC := fun k => 947116800000 + k * 2548800000,
    sunLongitudeDeg := fun t => if t < 1711756800000 then fracOfInt 30 else fracOfInt 15 }

/-- Pathologically short months (20 days) to drive the assembly loop
into its month-count cap. -/
def eP20 : Ephemeris :=
  { truePhaseDateUTC := fun k => 1690243200000 + (k - 282) * 1728000000,
    sunLongitudeDeg := fun _ => fracOfInt 30 }

/-- Months of 29 days 6 hours (`2527200000` ms, within the real
synodic range), whose recorded `lengthDays` rounds down to 29. -/
def e8 : Ephemeris :=
  { truePhaseDateUTC := fun k => 1701561600000 + (k - 296) * 2527200000,
    sunLongitudeDeg := fun _ => fracOfInt 30 }

/-- The `eConst30` moon stream truncated after lunation 308
(2024-11-22); later lunation indices answer with a far-future instant,
so windows beyond late 2024 see no usable conjunctions. -/
def eLim : Ephemeris :=
  { truePhaseDateUTC := fun k =>
      if k ≤ 308 then 947116800000 + k * 2548800000 else 9467107200000,
    sunLongitudeDeg := fun _ => fracOfInt 30 }

/-! ## Arithmetic helper lemmas -/

theorem tmod_neg_arg (a b : Int) : Int.tmod (-a) b = -(Int.tmod a b) := by
  simp [Int.tmod_def, Int.neg_tdiv, mul_comm]
  ring

theorem tmod_bounds (a : Int) : -28 < Int.tmod a 28 ∧ Int.tmod a 28 < 28 := by
  constructor
  · rcases le_or_lt 0 a with h | h
    · have := Int.tmod_nonneg 28 h
      omega
    · have h3 := Int.tmod_lt_of_pos (-a) (by norm_num : (0 : Int) < 28)
      rw [tmod_neg_arg] at h3
      omega
  · exact Int.tmod_lt_of_pos a (by norm_num)

theorem moonDay_bounds (a : Int) :
    1 ≤ jsRem (jsRem a 28 + 28) 28 + 1 ∧ jsRem (jsRem a 28 + 28) 28 + 1 ≤ 28 := by
  have hb := tmod_bounds a
  unfold jsRem
  rw [Int.tmod_eq_emod (by omega) (by norm_num)]
  have h1 := Int.emod_nonneg (Int.tmod a 28 + 28) (by norm_num : (28 : Int) ≠ 0)
  have h2 := Int.emod_lt_of_pos (Int.tmod a 28 + 28) (by norm_num : (0 : Int) < 28)
  omega

theorem day_offset_lt_end {s en L day : Int}
    (hL : L = jsRoundDiv (en - s) 86400000) (h2 : day ≤ L) :
    s + (day - 1) * 86400000 < en := by
  unfold jsRoundDiv at hL
  rw [Int.fdiv_eq_ediv _ (by norm_num)] at hL
  omega

theorem mul_day_fdiv_cancel (day : Int) :
    Int.fdiv ((day - 1) * 86400000) 86400000 = day - 1 :=
  Int.mul_fdiv_cancel _ (by norm_num)

/-! ## Structural lemmas about the build pipeline -/

/-- The fields of a month that the assembly loop fixes and the later
passes never touch. -/
def monthShape (m : LunarMonth) : Int × Int × Int := (m.start, m.«end», m.lengthDays)

theorem markLeap_map_shape :
    ∀ (l : List LunarMonth) (j : Nat) (li : Option Nat),
      (markLeap l j li).map monthShape = l.map monthShape
  | [], _, _ => rfl
  | m :: rest, j, li => by
    simp only [markLeap, List.map_cons, markLeap_map_shape rest (j + 1) li]
    congr 1
    split <;> rfl

theorem numberMonths_map_shape :
    ∀ (l : List LunarMonth) (n : Int),
      (numberMonths l n).map monthShape = l.map monthShape
  | [], _ => rfl
  | m :: rest, n => by
    simp only [numberMonths, List.map_cons,
      numberMonths_map_shape rest (if m.isLeap then n else n + 1)]
    rfl

theorem markLeap_length (l : List LunarMonth) (j : Nat) (li : Option Nat) :
    (markLeap l j li).length = l.length := by
  induction l generalizing j with
  | nil => rfl
  | cons m rest ih => simp [markLeap, ih]

theorem numberMonths_length (l : List LunarMonth) (n : Int) :
    (numberMonths l n).length = l.length := by
  induction l generalizing n with
  | nil => rfl
  | cons m rest ih => simp [numberMonths, ih]

theorem chain'_of_map_shape {l l' : List LunarMonth}
    (h : l.map monthShape = l'.map monthShape)
    (hc : List.Chain' (fun a b => a.«end» = b.start) l') :
    List.Chain' (fun a b => a.«end» = b.start) l := by
  have key : ∀ (t : List LunarMonth),
      List.Chain' (fun a b => a.«end» = b.start) t ↔
        List.Chain' (fun p q : Int × Int × Int => p.2.1 = q.1) (t.map monthShape) := by
    intro t
    rw [List.chain'_map]
    rfl
  rw [key, h, ← key]
  exact hc

theorem shape_mem_of_map_eq {l l' : List LunarMonth}
    (h : l.map monthShape = l'.map monthShape) :
    ∀ m ∈ l, ∃ m' ∈ l', monthShape m' = monthShape m := by
  intro m hm
  have hmem : monthShape m ∈ l'.map monthShape := by
    rw [← h]
    exact List.mem_map_of_mem _ hm
  rcases List.mem_map.mp hmem with ⟨m', hm', he⟩
  exact ⟨m', hm', he⟩

end MoonCalendar

namespace MoonCalendar

theorem assemble_head_start (e : Ephemeris) :
    ∀ (moons : List Int) (cnt : Nat) (acc : Int) (y : LunarMonth) (l : List LunarMonth),
      assemble e moons cnt acc = y :: l → ∃ n2 rest, moons = y.start :: n2 :: rest ∧ y.«end» = n2
  | [], _, _, _, _ => by intro h; simp [assemble] at h
  | [n], _, _, _, _ => by intro h; simp [assemble] at h
  | n1 :: n2 :: rest, cnt, acc, y, l => by
    intro h
    unfold assemble at h
    split at h
    · split at h
      · exact ⟨n2, rest, by cases h; exact ⟨rfl, rfl⟩⟩
      · exact ⟨n2, rest, by cases h; exact ⟨rfl, rfl⟩⟩
    · exact absurd h (by simp)

theorem assemble_chain (e : Ephemeris) :
    ∀ (moons : List Int) (cnt : Nat) (acc : Int),
      List.Chain' (fun a b => a.«end» = b.start) (assemble e moons cnt acc)
  | [], _, _ => by simp [assemble]
  | [n], _, _ => by simp [assemble]
  | n1 :: n2 :: rest, cnt, acc => by
    unfold assemble
    split
    · split
      · simp
      · refine List.chain'_cons'.mpr ⟨?_, assemble_chain e (n2 :: rest) (cnt + 1) _⟩
        intro y hy
        rcases List.head?_eq_some_iff.mp hy with ⟨t, ht⟩
        rcases assemble_head_start e (n2 :: rest) (cnt + 1) _ y t ht with ⟨n3, rest', heq, _⟩
        cases heq
        rfl
    · simp

theorem assemble_start_le_end (e : Ephemeris) :
    ∀ (moons : List Int) (cnt : Nat) (acc : Int), List.Sorted (· ≤ ·) moons →
      ∀ m ∈ assemble e moons cnt acc, m.start ≤ m.«end»
  | [], _, _ => by intro _ m hm; simp [assemble] at hm
  | [n], _, _ => by intro _ m hm; simp [assemble] at hm
  | n1 :: n2 :: rest, cnt, acc => by
    intro hs m hm
    have h12 : n1 ≤ n2 := List.rel_of_sorted_cons hs n2 (by simp)
    unfold assemble at hm
    split at hm
    · split at hm
      · simp at hm
        subst hm
        exact h12
      · rcases List.mem_cons.mp hm with h | h
        · subst h
          exact h12
        · exact assemble_start_le_end e (n2 :: rest) (cnt + 1) _ (List.sorted_cons.mp hs).2 m h
    · simp at hm

theorem assemble_lengthDays (e : Ephemeris) :
    ∀ (moons : List Int) (cnt : Nat) (acc : Int),
      ∀ m ∈ assemble e moons cnt acc, m.lengthDays = jsRoundDiv (m.«end» - m.start) 86400000
  | [], _, _ => by intro m hm; simp [assemble] at hm
  | [n], _, _ => by intro m hm; simp [assemble] at hm
  | n1 :: n2 :: rest, cnt, acc => by
    intro m hm
    unfold assemble at hm
    split at hm
    · split at hm
      · simp at hm
        subst hm
        rfl
      · rcases List.mem_cons.mp hm with h | h
        · subst h
          rfl
        · exact assemble_lengthDays e (n2 :: rest) (cnt + 1) _ m h
    · simp at hm

theorem assemble_length (e : Ephemeris) :
    ∀ (moons : List Int) (cnt : Nat) (acc : Int),
      (assemble e moons cnt acc).length ≤ 15 - cnt
  | [], cnt, _ => by simp [assemble]
  | [n], cnt, _ => by simp [assemble]
  | n1 :: n2 :: rest, cnt, acc => by
    unfold assemble
    split
    · split
      · simp
        omega
      · have := assemble_length e (n2 :: rest) (cnt + 1) (acc + jsRoundDiv (n2 - n1) 86400000)
        simp only [List.length_cons]
        omega
    · simp

theorem sorted_computeNewMoons (e : Ephemeris) (a b : Int) :
    List.Sorted (· ≤ ·) (computeNewMoonsBetween e a b) :=
  List.sorted_insertionSort _ _

end MoonCalendar

namespace MoonCalendar

theorem build_months_facts {e : Ephemeris} {ref : Int} {opts : Options} {ly : LunisolarYear}
    (h : computeLunisolarYear e ref opts = .ok ly) :
    List.Chain' (fun a b => a.«end» = b.start) ly.months ∧
    (∀ m ∈ ly.months, m.start ≤ m.«end») ∧
    (∀ m ∈ ly.months, m.lengthDays = jsRoundDiv (m.«end» - m.start) 86400000) ∧
    ly.months.length ≤ 15 ∧
    ∃ m0 t, ly.months = m0 :: t ∧ ly.lunarYearStart = m0.start := by
  simp only [computeLunisolarYear] at h
  split at h
  · exact absurd h (by simp)
  · split at h
    · exact absurd h (by simp)
    · rename_i a ha
      split at h
      · exact absurd h (by simp)
      · rename_i m0 rest heq
        injection h with h'
        subst h'
        simp only []
        have hsorted :
            List.Sorted (· ≤ ·)
              ((computeNewMoonsBetween e
                  (dateUTCms (getUTCFullYear ref - 1) 11 1)
                  (dateUTCms (getUTCFullYear ref + 1) 3 30)).drop a) :=
          List.Pairwise.sublist (List.drop_sublist a _) (sorted_computeNewMoons e _ _)
        have hshape : (m0 :: rest).map monthShape =
            (assemble e
              ((computeNewMoonsBetween e
                  (dateUTCms (getUTCFullYear ref - 1) 11 1)
                  (dateUTCms (getUTCFullYear ref + 1) 3 30)).drop a) 0 0).map monthShape := by
          rw [← heq, numberMonths_map_shape, markLeap_map_shape]
        refine ⟨?_, ?_, ?_, ?_, m0, rest, rfl, rfl⟩
        · exact chain'_of_map_shape hshape (assemble_chain e _ 0 0)
        · intro m hm
          rcases shape_mem_of_map_eq hshape m hm with ⟨m', hm', hs⟩
          have h1 := assemble_start_le_end e _ 0 0 hsorted m' hm'
          have h2 : m'.start = m.start ∧ m'.«end» = m.«end» := by
            unfold monthShape at hs
            exact ⟨congrArg (fun p => p.1) hs, congrArg (fun p => p.2.1) hs⟩
          rw [← h2.1, ← h2.2]
          exact h1
        · intro m hm
          rcases shape_mem_of_map_eq hshape m hm with ⟨m', hm', hs⟩
          have h1 := assemble_lengthDays e _ 0 0 m' hm'
          have h2 : m'.start = m.start ∧ m'.«end» = m.«end» ∧ m'.lengthDays = m.lengthDays := by
            unfold monthShape at hs
            exact ⟨congrArg (fun p => p.1) hs, congrArg (fun p => p.2.1) hs,
              congrArg (fun p => p.2.2) hs⟩
          rw [← h2.1, ← h2.2.1, ← h2.2.2]
          exact h1
        · have hlen : (m0 :: rest).length =
              (assemble e
                ((computeNewMoonsBetween e
                    (dateUTCms (getUTCFullYear ref - 1) 11 1)
                    (dateUTCms (getUTCFullYear ref + 1) 3 30)).drop a) 0 0).length := by
            rw [← heq, numberMonths_length, markLeap_length]
          rw [hlen]
          have := assemble_length e
            ((computeNewMoonsBetween e
                (dateUTCms (getUTCFullYear ref - 1) 11 1)
                (dateUTCms (getUTCFullYear ref + 1) 3 30)).drop a) 0 0
          omega

end MoonCalendar

namespace MoonCalendar

theorem findBracketIdx_sound :
    ∀ {l : List LunarMonth} {d : Int} {i j : Nat} {m : LunarMonth},
      findBracketIdx l d i = some (j, m) → m.start ≤ d ∧ d < m.«end» ∧ m ∈ l
  | [], _, _, _, _ => by intro h; simp [findBracketIdx] at h
  | x :: rest, d, i, j, m => by
    intro h
    unfold findBracketIdx at h
    split at h
    · rename_i hx
      injection h with h'
      injection h' with h1 h2
      subst h2
      exact ⟨hx.1, hx.2, by simp⟩
    · rcases findBracketIdx_sound h with ⟨h1, h2, h3⟩
      exact ⟨h1, h2, by simp [h3]⟩

theorem chain_end_le_start {l : List LunarMonth} {x : LunarMonth}
    (hc : List.Chain' (fun a b => a.«end» = b.start) (x :: l))
    (hle : ∀ m ∈ x :: l, m.start ≤ m.«end») :
    ∀ m ∈ l, x.«end» ≤ m.start := by
  induction l generalizing x with
  | nil => intro m hm; simp at hm
  | cons y rest ih =>
    intro m hm
    have hxy : x.«end» = y.start := (List.chain'_cons.mp hc).1
    rcases List.mem_cons.mp hm with h | h
    · subst h
      exact le_of_eq hxy
    · have hy := ih (List.chain'_cons.mp hc).2 (fun m hm => hle m (by simp at hm ⊢; tauto)) m h
      have : y.start ≤ y.«end» := hle y (by simp)
      omega

theorem findBracketIdx_of_mem :
    ∀ {l : List LunarMonth} {d : Int} {m : LunarMonth} (i : Nat),
      List.Chain' (fun a b => a.«end» = b.start) l →
      (∀ x ∈ l, x.start ≤ x.«end») →
      m ∈ l → m.start ≤ d → d < m.«end» →
      ∃ j, findBracketIdx l d i = some (j, m)
  | [], _, _, _ => by intro _ _ hm; simp at hm
  | x :: rest, d, m, i => by
    intro hc hle hm h1 h2
    unfold findBracketIdx
    split
    · rename_i hx
      rcases List.mem_cons.mp hm with h | h
      · subst h
        exact ⟨i, rfl⟩
      · have := chain_end_le_start hc hle m h
        omega
    · rename_i hx
      rcases List.mem_cons.mp hm with h | h
      · subst h
        exact absurd ⟨h1, h2⟩ hx
      · exact findBracketIdx_of_mem (i + 1) (List.chain'_cons'.mp hc).2
          (fun x hx => hle x (by simp [hx])) h h1 h2

theorem firstMatch_sound :
    ∀ {p : LunarMonth → Bool} {l : List LunarMonth} {m : LunarMonth},
      firstMatch p l = some m → p m = true ∧ m ∈ l
  | _, [], _ => by intro h; simp [firstMatch] at h
  | p, x :: rest, m => by
    intro h
    unfold firstMatch at h
    split at h
    · injection h with h'
      subst h'
      rename_i hp
      exact ⟨hp, by simp⟩
    · rcases firstMatch_sound h with ⟨h1, h2⟩
      exact ⟨h1, by simp [h2]⟩

end MoonCalendar

namespace MoonCalendar

/-- C7: in every `LunisolarYear` returned by `computeLunisolarYear`,
adjacent months satisfy `months[i].end = months[i+1].start`, and
`months[0].start` equals the returned lunar year start. -/
theorem partition_invariant (e : Ephemeris) (ref : Int) (opts : Options) (ly : LunisolarYear)
    (h : computeLunisolarYear e ref opts = .ok ly) :
    List.Chain' (fun a b => a.«end» = b.start) ly.months ∧
    ∀ m0 ∈ ly.months.head?, m0.start = ly.lunarYearStart := by
  rcases build_months_facts h with ⟨hc, _, _, _, m0, t, hm, hs⟩
  refine ⟨hc, ?_⟩
  intro x hx
  rw [hm] at hx
  simp at hx
  subst hx
  rw [hs]

/-- Witness for C7 at a concrete build (29.5-day months, year 2024). -/
theorem partition_invariant_witness :
    List.Chain' (fun a b => a.«end» = b.start)
      (okOr (computeLunisolarYear eConst30 (dateUTCms 2024 2 20) defaultOptions)).months ∧
    ∀ m0 ∈ (okOr (computeLunisolarYear eConst30 (dateUTCms 2024 2 20)
        defaultOptions)).months.head?,
      m0.start =
        (okOr (computeLunisolarYear eConst30 (dateUTCms 2024 2 20) defaultOptions)).lunarYearStart :=
  partition_invariant eConst30 (dateUTCms 2024 2 20) defaultOptions _ (by rfl)

end MoonCalendar

namespace MoonCalendar

theorem tryCandidates_skip {e : Ephemeris} {opts : Options} {d y : Int} {ys : List Int}
    (h : candidateMissB e opts d y = true) :
    tryCandidates e opts d (y :: ys) = tryCandidates e opts d ys := by
  unfold candidateMissB at h
  cases hx : computeLunisolarYear e (dateUTCms y 2 20) opts with
  | error msg => simp [tryCandidates, hx]
  | ok ly =>
    rw [hx] at h
    simp only [tryCandidates, hx]
    rw [Option.isNone_iff_eq_none.mp h]

theorem tryCandidates_hit {e : Ephemeris} {opts : Options} {d y : Int} {ys : List Int}
    {ly : LunisolarYear} {j : Nat} {m : LunarMonth}
    (h1 : computeLunisolarYear e (dateUTCms y 2 20) opts = .ok ly)
    (h2 : findBracketIdx ly.months d 0 = some (j, m)) :
    tryCandidates e opts d (y :: ys) = some
      { lunarYear := ly.lunarYear, monthIndex := j, monthNumber := m.displayMonthNumber,
        monthDay := Int.fdiv (d - m.start) 86400000 + 1, isLeap := m.isLeap,
        lunarYearStart := ly.lunarYearStart } := by
  unfold tryCandidates
  rw [h1]
  simp [h2]

theorem toLunisolar_of_hit {e : Ephemeris} {d : Int} {opts : Options} {r : LunisolarDate}
    (h : tryCandidates e opts d [getUTCFullYear d - 1, getUTCFullYear d, getUTCFullYear d + 1] =
      some r) :
    toLunisolar e d opts = .ok r := by
  simp only [toLunisolar]
  rw [h]

/-- C3 (amended): the safety cap of the assembly loop is 15 months, not
13; every returned `LunisolarYear` has at most 15 months, and reaching
the cap silently ends collection instead of raising `YearAssemblyError`. -/
theorem month_cap_amended (e : Ephemeris) (ref : Int) (opts : Options) (ly : LunisolarYear)
    (h : computeLunisolarYear e ref opts = .ok ly) :
    ly.months.length ≤ 15 :=
  (build_months_facts h).2.2.2.1

/-- Witness for the amended C3 at a concrete build. -/
theorem month_cap_amended_witness :
    (okOr (computeLunisolarYear eConst30 (dateUTCms 2024 2 20) defaultOptions)).months.length ≤
      15 :=
  month_cap_amended eConst30 (dateUTCms 2024 2 20) defaultOptions _ (by rfl)

/-- C3 (counterexample): with 20-day lunations the build returns
normally (no `YearAssemblyError`) carrying 15 months — more than the
claimed 13 — after silently hitting the cap. -/
theorem month_cap_counterexample :
    isOkB (computeLunisolarYear eP20 (dateUTCms 2024 2 20) defaultOptions) = true ∧
    (okOr (computeLunisolarYear eP20 (dateUTCms 2024 2 20) defaultOptions)).months.length = 15 ∧
    ¬(okOr (computeLunisolarYear eP20 (dateUTCms 2024 2 20) defaultOptions)).months.length ≤ 13 :=
  ⟨by rfl, by rfl, by decide⟩

/-- C2 (code evaluation at the failing input): with a principal term in
the first assembled month and none in the second, the leap month sits at
index 1 and is numbered `2` while its predecessor is numbered `1` — the
code gives the leap month a fresh display number and lets the month
after it repeat that number, instead of the leap month repeating its
predecessor's number. -/
theorem leap_numbering_eval :
    (okOr (computeLunisolarYear eStep (dateUTCms 2024 2 20) defaultOptions)).leapIndex =
      some 1 ∧
    (okOr (computeLunisolarYear eStep (dateUTCms 2024 2 20) defaultOptions)).months.map
      (fun m => (m.displayMonthNumber, m.isLeap)) =
      [(1, false), (2, true), (2, false), (3, false), (4, false), (5, false), (6, false),
       (7, false), (8, false), (9, false), (10, false), (11, false), (12, false)] :=
  ⟨by rfl, by decide⟩

/-- C10: `fromLunisolar` performs no bounds check on `monthDay` — for
every integer `monthDay` (0, negative, or beyond the month's length),
once a month matches `(displayMonthNumber, isLeap)` the result is
unconditionally that month's start plus `(monthDay - 1)` days. -/
theorem fromLunisolar_no_monthDay_validation (e : Ephemeris) (yr num day : Int) (leap : Bool)
    (opts : Options) (ly : LunisolarYear) (m : LunarMonth)
    (h1 : computeLunisolarYear e (dateUTCms yr 2 20) opts = .ok ly)
    (h2 : firstMatch (fun mo => mo.displayMonthNumber == num && mo.isLeap == leap) ly.months =
      some m) :
    fromLunisolar e yr num day leap opts = .ok (m.start + (day - 1) * 86400000) := by
  unfold fromLunisolar
  rw [h1]
  simp [h2]

/-- Witness for C10 at `monthDay = 0`: the returned instant is one day
before the matched month's start, outside the month. -/
theorem fromLunisolar_no_monthDay_validation_witness :
    fromLunisolar eConst30 2024 2 0 false defaultOptions =
      .ok (1711756800000 + (0 - 1) * 86400000) :=
  fromLunisolar_no_monthDay_validation eConst30 2024 2 0 false defaultOptions
    (okOr (computeLunisolarYear eConst30 (dateUTCms 2024 2 20) defaultOptions))
    ⟨1711756800000, 1714305600000, 30, true, false, false, 2, 2⟩ (by rfl) (by rfl)

/-- C4 (amended): when a month matches `(displayMonthNumber, isLeap)`,
`fromLunisolar` returns its start plus `(monthDay - 1)` days; when no
month matches it does not fail with `MonthNotFoundError` but clamps,
returning the first month's start. -/
theorem fromLunisolar_fallback_amended (e : Ephemeris) (yr num day : Int) (leap : Bool)
    (opts : Options) (ly : LunisolarYear)
    (h : computeLunisolarYear e (dateUTCms yr 2 20) opts = .ok ly) :
    (∀ m, firstMatch (fun mo => mo.displayMonthNumber == num && mo.isLeap == leap) ly.months =
        some m →
      fromLunisolar e yr num day leap opts = .ok (m.start + (day - 1) * 86400000)) ∧
    (firstMatch (fun mo => mo.displayMonthNumber == num && mo.isLeap == leap) ly.months =
        none →
      fromLunisolar e yr num day leap opts = .ok ly.lunarYearStart) := by
  constructor
  · intro m hm
    unfold fromLunisolar
    rw [h]
    simp [hm]
  · intro hn
    unfold fromLunisolar
    rw [h]
    rcases build_months_facts h with ⟨-, -, -, -, m0, t, hm, hs⟩
    rw [hm] at hn
    simp [hn, hm, hs]

/-- Witness for the amended C4: requesting a leap month in a year with
no leap month clamps to the year's first month start. -/
theorem fromLunisolar_fallback_amended_witness :
    (∀ m, firstMatch (fun mo => mo.displayMonthNumber == 3 && mo.isLeap == true)
        (okOr (computeLunisolarYear eConst30 (dateUTCms 2024 2 20) defaultOptions)).months =
        some m →
      fromLunisolar eConst30 2024 3 5 true defaultOptions =
        .ok (m.start + (5 - 1) * 86400000)) ∧
    (firstMatch (fun mo => mo.displayMonthNumber == 3 && mo.isLeap == true)
        (okOr (computeLunisolarYear eConst30 (dateUTCms 2024 2 20) defaultOptions)).months =
        none →
      fromLunisolar eConst30 2024 3 5 true defaultOptions =
        .ok (okOr (computeLunisolarYear eConst30 (dateUTCms 2024 2 20)
          defaultOptions)).lunarYearStart) :=
  fromLunisolar_fallback_amended eConst30 2024 3 5 true defaultOptions _ (by rfl)

/-- C4 (counterexample): the 2024 build under `eConst30` has no leap
month, so the pair `(3, isLeap = true)` matches nothing, yet
`fromLunisolar` succeeds, returning the first month's start rather than
failing with `MonthNotFoundError`. -/
theorem fromLunisolar_missing_month_counterexample :
    firstMatch (fun mo => mo.displayMonthNumber == 3 && mo.isLeap == true)
      (okOr (computeLunisolarYear eConst30 (dateUTCms 2024 2 20) defaultOptions)).months =
      none ∧
    isOkB (computeLunisolarYear eConst30 (dateUTCms 2024 2 20) defaultOptions) = true ∧
    fromLunisolar eConst30 2024 3 5 true defaultOptions = .ok 1709208000000 ∧
    (okOr (computeLunisolarYear eConst30 (dateUTCms 2024 2 20)
      defaultOptions)).lunarYearStart = 1709208000000 ∧
    isOkB (fromLunisolar eConst30 2024 3 5 true defaultOptions) = true :=
  ⟨by rfl, by rfl, by rfl, by rfl, by rfl⟩

end MoonCalendar

namespace MoonCalendar

/-- C6 (amended): `toLunisolar` tries the *previous* calendar year
first (`candidateYears = [year - 1, year, year + 1]`); whenever the
previous year's build brackets the instant, the returned coordinates
come from the previous year's `LunisolarYear`, regardless of whether
the instant's own calendar year also brackets it. -/
theorem candidate_order_amended (e : Ephemeris) (opts : Options) (d : Int)
    (ly' : LunisolarYear) (i : Nat) (m : LunarMonth)
    (h1 : computeLunisolarYear e (dateUTCms (getUTCFullYear d - 1) 2 20) opts = .ok ly')
    (h2 : findBracketIdx ly'.months d 0 = some (i, m)) :
    toLunisolar e d opts = .ok
      { lunarYear := ly'.lunarYear, monthIndex := i, monthNumber := m.displayMonthNumber,
        monthDay := Int.fdiv (d - m.start) 86400000 + 1, isLeap := m.isLeap,
        lunarYearStart := ly'.lunarYearStart } :=
  toLunisolar_of_hit (tryCandidates_hit h1 h2)

/-- Witness for the amended C6: 2024-03-18 is bracketed by the
2023 build's 13th month, and `toLunisolar` answers from the 2023 year. -/
theorem candidate_order_amended_witness :
    toLunisolar eConst30 1710720000000 defaultOptions = .ok
      { lunarYear :=
          (okOr (computeLunisolarYear eConst30
            (dateUTCms (getUTCFullYear 1710720000000 - 1) 2 20) defaultOptions)).lunarYear,
        monthIndex := 12,
        monthNumber :=
          (⟨1709208000000, 1711756800000, 30, true, false, false, 13, 13⟩ :
            LunarMonth).displayMonthNumber,
        monthDay := Int.fdiv (1710720000000 - 1709208000000) 86400000 + 1,
        isLeap := false,
        lunarYearStart :=
          (okOr (computeLunisolarYear eConst30
            (dateUTCms (getUTCFullYear 1710720000000 - 1) 2 20)
            defaultOptions)).lunarYearStart } :=
  candidate_order_amended eConst30 defaultOptions 1710720000000 _ 12
    ⟨1709208000000, 1711756800000, 30, true, false, false, 13, 13⟩ (by rfl) (by rfl)

/-- C6 (counterexample): the instant 2024-03-18 belongs to calendar
year 2024 and is bracketed by the 2024 build's own month list, yet
`toLunisolar` returns coordinates from the 2023 year because the
candidate order tries `year - 1` before `year`. -/
theorem candidate_order_counterexample :
    getUTCFullYear 1710720000000 = 2024 ∧
    (findBracketIdx (okOr (computeLunisolarYear eConst30 (dateUTCms 2024 2 20)
      defaultOptions)).months 1710720000000 0).isSome = true ∧
    (okOr (computeLunisolarYear eConst30 (dateUTCms 2024 2 20) defaultOptions)).lunarYear =
      2024 ∧
    (findBracketIdx (okOr (computeLunisolarYear eConst30 (dateUTCms 2023 2 20)
      defaultOptions)).months 1710720000000 0).isSome = true ∧
    (okOr (computeLunisolarYear eConst30 (dateUTCms 2023 2 20) defaultOptions)).lunarYear =
      2023 ∧
    toLunisolar eConst30 1710720000000 defaultOptions =
      .ok ⟨2023, 12, 13, 18, false, 1678622400000⟩ ∧
    (2023 : Int) ≠ 2024 :=
  ⟨by rfl, by rfl, by rfl, by rfl, by rfl, by rfl, by decide⟩

/-- C5 (amended): when no candidate year's month list brackets the
instant, `toLunisolar` does not fail with `DateOutOfRangeError`; it
falls back to a 28-day-cycle computation over the instant's own
calendar-year build and returns that `LunisolarDate` (failing only when
that unguarded build itself throws). -/
theorem out_of_range_fallback_amended (e : Ephemeris) (d : Int) (opts : Options)
    (ly : LunisolarYear)
    (h1 : tryCandidates e opts d
      [getUTCFullYear d - 1, getUTCFullYear d, getUTCFullYear d + 1] = none)
    (h2 : computeLunisolarYear e (dateUTCms (getUTCFullYear d) 2 20) opts = .ok ly) :
    toLunisolar e d opts = .ok
      { lunarYear := ly.lunarYear, monthIndex := 0,
        monthNumber := Int.fdiv (Int.fdiv (d - ly.lunarYearStart) 86400000) 28 + 1,
        monthDay := jsRem (jsRem (Int.fdiv (d - ly.lunarYearStart) 86400000) 28 + 28) 28 + 1,
        isLeap := false, lunarYearStart := ly.lunarYearStart } ∧
    1 ≤ jsRem (jsRem (Int.fdiv (d - ly.lunarYearStart) 86400000) 28 + 28) 28 + 1 ∧
    jsRem (jsRem (Int.fdiv (d - ly.lunarYearStart) 86400000) 28 + 28) 28 + 1 ≤ 28 := by
  refine ⟨?_, (moonDay_bounds _).1, (moonDay_bounds _).2⟩
  simp only [toLunisolar]
  rw [h1]
  simp [h2]

/-- Witness for the amended C5 with the truncated moon stream. -/
theorem out_of_range_fallback_amended_witness :
    toLunisolar eLim 1733788800000 defaultOptions = .ok
      { lunarYear :=
          (okOr (computeLunisolarYear eLim
            (dateUTCms (getUTCFullYear 1733788800000) 2 20) defaultOptions)).lunarYear,
        monthIndex := 0,
        monthNumber := Int.fdiv (Int.fdiv (1733788800000 -
          (okOr (computeLunisolarYear eLim
            (dateUTCms (getUTCFullYear 1733788800000) 2 20)
            defaultOptions)).lunarYearStart) 86400000) 28 + 1,
        monthDay := jsRem (jsRem (Int.fdiv (1733788800000 -
          (okOr (computeLunisolarYear eLim
            (dateUTCms (getUTCFullYear 1733788800000) 2 20)
            defaultOptions)).lunarYearStart) 86400000) 28 + 28) 28 + 1,
        isLeap := false,
        lunarYearStart :=
          (okOr (computeLunisolarYear eLim
            (dateUTCms (getUTCFullYear 1733788800000) 2 20)
            defaultOptions)).lunarYearStart } ∧
    1 ≤ jsRem (jsRem (Int.fdiv (1733788800000 -
        (okOr (computeLunisolarYear eLim
          (dateUTCms (getUTCFullYear 1733788800000) 2 20)
          defaultOptions)).lunarYearStart) 86400000) 28 + 28) 28 + 1 ∧
    jsRem (jsRem (Int.fdiv (1733788800000 -
        (okOr (computeLunisolarYear eLim
          (dateUTCms (getUTCFullYear 1733788800000) 2 20)
          defaultOptions)).lunarYearStart) 86400000) 28 + 28) 28 + 1 ≤ 28 :=
  out_of_range_fallback_amended eLim 1733788800000 defaultOptions _ (by rfl) (by rfl)

/-- C5 (counterexample): no candidate year brackets 2024-12-10 under
the truncated moon stream, yet `toLunisolar` succeeds with a 28-day
fallback date instead of failing with `DateOutOfRangeError`. -/
theorem out_of_range_counterexample :
    tryCandidates eLim defaultOptions 1733788800000 [2023, 2024, 2025] = none ∧
    getUTCFullYear 1733788800000 = 2024 ∧
    toLunisolar eLim 1733788800000 defaultOptions =
      .ok ⟨2024, 0, 11, 5, false, 1709208000000⟩ ∧
    isOkB (toLunisolar eLim 1733788800000 defaultOptions) = true :=
  ⟨by rfl, by rfl, by rfl, by rfl⟩

end MoonCalendar

namespace MoonCalendar

/-- C8 (amended): whenever `toLunisolar`'s candidate search finds a
bracketing month `m` for the instant, the returned `monthDay` satisfies
`1 ≤ monthDay ≤ ⌈(m.end - m.start) / 1 day⌉`.  (The upper bound can
exceed the month's recorded `lengthDays` by one, because `lengthDays`
is `Math.round`, not a ceiling, of the fractional month length.) -/
theorem day_bounds_amended :
    ∀ (ys : List Int) (e : Ephemeris) (opts : Options) (d : Int) (r : LunisolarDate),
      tryCandidates e opts d ys = some r →
      1 ≤ r.monthDay ∧
      ∃ y ly j m, y ∈ ys ∧ computeLunisolarYear e (dateUTCms y 2 20) opts = .ok ly ∧
        findBracketIdx ly.months d 0 = some (j, m) ∧ r.monthIndex = j ∧
        m.start ≤ d ∧ d < m.«end» ∧ r.monthDay ≤ ceilDiv (m.«end» - m.start) 86400000
  | [], _, _, _, _ => by intro h; simp [tryCandidates] at h
  | y :: ys, e, opts, d, r => by
    intro h
    unfold tryCandidates at h
    split at h
    · rcases day_bounds_amended ys e opts d r h with ⟨hb, y', ly, j, m, hmem, hrest⟩
      exact ⟨hb, y', ly, j, m, by simp [hmem], hrest⟩
    · rename_i ly hx
      split at h
      · rename_i j m hbr
        injection h with h'
        subst h'
        rcases findBracketIdx_sound hbr with ⟨hs, he, -⟩
        have hnn : 0 ≤ Int.fdiv (d - m.start) 86400000 := by
          rw [Int.fdiv_eq_ediv _ (by norm_num)]
          omega
        refine ⟨by simpa using by omega, y, ly, j, m, by simp, hx, hbr, rfl, hs, he, ?_⟩
        show Int.fdiv (d - m.start) 86400000 + 1 ≤ ceilDiv (m.«end» - m.start) 86400000
        unfold ceilDiv
        rw [Int.fdiv_eq_ediv _ (by norm_num), Int.fdiv_eq_ediv _ (by norm_num)]
        omega
      · rcases day_bounds_amended ys e opts d r h with ⟨hb, y', ly', j, m, hmem, hrest⟩
        exact ⟨hb, y', ly', j, m, by simp [hmem], hrest⟩

/-- Witness for the amended C8 at a bracketed mid-2024 instant. -/
theorem day_bounds_amended_witness :
    1 ≤ (⟨2024, 4, 5, 10, false, 1709208000000⟩ : LunisolarDate).monthDay ∧
    ∃ y ly j m, y ∈ [2023, 2024, 2025] ∧
      computeLunisolarYear eConst30 (dateUTCms y 2 20) defaultOptions = .ok ly ∧
      findBracketIdx ly.months 1720180800000 0 = some (j, m) ∧
      (⟨2024, 4, 5, 10, false, 1709208000000⟩ : LunisolarDate).monthIndex = j ∧
      m.start ≤ 1720180800000 ∧ 1720180800000 < m.«end» ∧
      (⟨2024, 4, 5, 10, false, 1709208000000⟩ : LunisolarDate).monthDay ≤
        ceilDiv (m.«end» - m.start) 86400000 :=
  day_bounds_amended [2023, 2024, 2025] eConst30 defaultOptions 1720180800000
    ⟨2024, 4, 5, 10, false, 1709208000000⟩ (by rfl)

/-- C8 (counterexample): a month of 29 days 6 hours has recorded
`lengthDays = 29` (and `⌊(end - start)/1 day⌋ = 29` as well), yet
`toLunisolar` returns `monthDay = 30` for an instant 29 whole days into
that month — the claimed bound `monthDay ≤ lengthDays` fails. -/
theorem day_bounds_counterexample :
    toLunisolar e8 1711648800000 defaultOptions =
      .ok ⟨2023, 12, 13, 30, false, 1678816800000⟩ ∧
    (okOr (computeLunisolarYear e8 (dateUTCms 2023 2 20) defaultOptions)).months.get? 12 =
      some ⟨1709143200000, 1711670400000, 29, true, false, false, 13, 13⟩ ∧
    (1709143200000 : Int) ≤ 1711648800000 ∧ (1711648800000 : Int) < 1711670400000 ∧
    Int.fdiv ((1711670400000 : Int) - 1709143200000) 86400000 = 29 ∧
    ¬((30 : Int) ≤ 29) :=
  ⟨by rfl, by rfl, by decide, by decide, by decide, by decide⟩

end MoonCalendar

namespace MoonCalendar

/-- C1 (amended): the round trip holds for coordinates reachable from
the year built for `yearIndex` *provided* the first candidate of
`toLunisolar`'s search (`[g-1, g, g+1]` for `g` the Gregorian year of
the produced instant, tried previous-first) whose build brackets the
instant is that same build, and that build's `lunarYear` field equals
`yearIndex`.  Without the candidate proviso the round trip fails (see
the counterexample): the previous year's 13-month list can bracket the
instant first and the returned tuple then comes from that year. -/
theorem roundtrip_amended (e : Ephemeris) (opts : Options) (yearIndex disp day : Int)
    (leap : Bool) (ly : LunisolarYear) (m : LunarMonth)
    (h1 : computeLunisolarYear e (dateUTCms yearIndex 2 20) opts = .ok ly)
    (h2 : firstMatch (fun mo => mo.displayMonthNumber == disp && mo.isLeap == leap)
      ly.months = some m)
    (h3 : 1 ≤ day) (h4 : day ≤ m.lengthDays)
    (h5 : ly.lunarYear = yearIndex)
    (h6 : getUTCFullYear (m.start + (day - 1) * 86400000) - 1 = yearIndex ∨
          (getUTCFullYear (m.start + (day - 1) * 86400000) = yearIndex ∧
            candidateMissB e opts (m.start + (day - 1) * 86400000)
              (getUTCFullYear (m.start + (day - 1) * 86400000) - 1) = true) ∨
          (getUTCFullYear (m.start + (day - 1) * 86400000) + 1 = yearIndex ∧
            candidateMissB e opts (m.start + (day - 1) * 86400000)
              (getUTCFullYear (m.start + (day - 1) * 86400000) - 1) = true ∧
            candidateMissB e opts (m.start + (day - 1) * 86400000)
              (getUTCFullYear (m.start + (day - 1) * 86400000)) = true)) :
    fromLunisolar e yearIndex disp day leap opts = .ok (m.start + (day - 1) * 86400000) ∧
    ∃ r, toLunisolar e (m.start + (day - 1) * 86400000) opts = .ok r ∧
      r.lunarYear = yearIndex ∧ r.monthNumber = disp ∧ r.monthDay = day ∧ r.isLeap = leap := by
  have hfrom : fromLunisolar e yearIndex disp day leap opts =
      .ok (m.start + (day - 1) * 86400000) := by
    unfold fromLunisolar
    rw [h1]
    simp [h2]
  refine ⟨hfrom, ?_⟩
  rcases build_months_facts h1 with ⟨hc, hle, hld, -, -⟩
  rcases firstMatch_sound h2 with ⟨hp, hmem⟩
  rw [Bool.and_eq_true, beq_iff_eq, beq_iff_eq] at hp
  set d := m.start + (day - 1) * 86400000 with hd
  have hstart : m.start ≤ d := by
    have : 0 ≤ (day - 1) * 86400000 := mul_nonneg (by omega) (by norm_num)
    omega
  have hend : d < m.«end» := day_offset_lt_end (hld m hmem) h4
  rcases findBracketIdx_of_mem 0 hc hle hmem hstart hend with ⟨j, hj⟩
  have hdm : d - m.start = (day - 1) * 86400000 := by rw [hd]; ring
  have hday : Int.fdiv (d - m.start) 86400000 + 1 = day := by
    rw [hdm, mul_day_fdiv_cancel]
    omega
  rcases h6 with hA | ⟨hB1, hB2⟩ | ⟨hC1, hC2, hC3⟩
  · have h1' : computeLunisolarYear e (dateUTCms (getUTCFullYear d - 1) 2 20) opts =
        .ok ly := by
      rw [hA]
      exact h1
    exact ⟨{ lunarYear := ly.lunarYear, monthIndex := j, monthNumber := m.displayMonthNumber,
             monthDay := Int.fdiv (d - m.start) 86400000 + 1, isLeap := m.isLeap,
             lunarYearStart := ly.lunarYearStart },
      toLunisolar_of_hit
        (tryCandidates_hit h1' hj),
      h5, hp.1, hday, hp.2⟩
  · have h1' : computeLunisolarYear e (dateUTCms (getUTCFullYear d) 2 20) opts = .ok ly := by
      rw [hB1]
      exact h1
    refine ⟨{ lunarYear := ly.lunarYear, monthIndex := j, monthNumber := m.displayMonthNumber,
              monthDay := Int.fdiv (d - m.start) 86400000 + 1, isLeap := m.isLeap,
              lunarYearStart := ly.lunarYearStart },
      toLunisolar_of_hit ?_, h5, hp.1, hday, hp.2⟩
    rw [tryCandidates_skip hB2]
    exact tryCandidates_hit h1' hj
  · have h1' : computeLunisolarYear e (dateUTCms (getUTCFullYear d + 1) 2 20) opts =
        .ok ly := by
      rw [hC1]
      exact h1
    refine ⟨{ lunarYear := ly.lunarYear, monthIndex := j, monthNumber := m.displayMonthNumber,
              monthDay := Int.fdiv (d - m.start) 86400000 + 1, isLeap := m.isLeap,
              lunarYearStart := ly.lunarYearStart },
      toLunisolar_of_hit ?_, h5, hp.1, hday, hp.2⟩
    rw [tryCandidates_skip hC2, tryCandidates_skip hC3]
    exact tryCandidates_hit h1' hj

end MoonCalendar

namespace MoonCalendar

/-- Witness for the amended C1: coordinate `(2024, 5, 10, false)` in
the middle of the 2024 year round-trips exactly (the previous
candidate year's months end in April 2024 and do not bracket the July
instant). -/
theorem roundtrip_amended_witness :
    fromLunisolar eConst30 2024 5 10 false defaultOptions =
      .ok (1719403200000 + (10 - 1) * 86400000) ∧
    ∃ r, toLunisolar eConst30 (1719403200000 + (10 - 1) * 86400000) defaultOptions = .ok r ∧
      r.lunarYear = 2024 ∧ r.monthNumber = 5 ∧ r.monthDay = 10 ∧ r.isLeap = false :=
  roundtrip_amended eConst30 defaultOptions 2024 5 10 false
    (okOr (computeLunisolarYear eConst30 (dateUTCms 2024 2 20) defaultOptions))
    ⟨1719403200000, 1721952000000, 30, true, false, false, 5, 5⟩
    (by rfl) (by rfl) (by decide) (by decide) (by rfl)
    (Or.inr (Or.inl ⟨by rfl, by rfl⟩))

/-- C1 (counterexample): coordinate `(2024, 1, 1, false)` is reachable
from the 2024 build (its first month, display number 1, not leap,
`monthDay = 1 ≤ 30`), but `toLunisolar (fromLunisolar …)` returns
`(2023, 13, 1, false)` — the instant is also bracketed by the 2023
build's 13th month and the candidate order tries 2023 first. -/
theorem roundtrip_counterexample :
    (okOr (computeLunisolarYear eConst30 (dateUTCms 2024 2 20) defaultOptions)).lunarYear =
      2024 ∧
    firstMatch (fun mo => mo.displayMonthNumber == 1 && mo.isLeap == false)
      (okOr (computeLunisolarYear eConst30 (dateUTCms 2024 2 20) defaultOptions)).months =
      some ⟨1709208000000, 1711756800000, 30, true, false, false, 1, 1⟩ ∧
    ((1 : Int) ≤ 1 ∧ (1 : Int) ≤
      (⟨1709208000000, 1711756800000, 30, true, false, false, 1, 1⟩ :
        LunarMonth).lengthDays) ∧
    fromLunisolar eConst30 2024 1 1 false defaultOptions = .ok 1709208000000 ∧
    toLunisolar eConst30 1709208000000 defaultOptions =
      .ok ⟨2023, 12, 13, 1, false, 1678622400000⟩ ∧
    ((2023 : Int), (13 : Int), (1 : Int), false) ≠ ((2024 : Int), (1 : Int), (1 : Int), false) :=
  ⟨by rfl, by rfl, by decide, by rfl, by rfl, by decide⟩

/-- The per-event success output of the migration preview, as an
optional value (`none` when processing the event throws). -/
def migOk (e : Ephemeris) (opts : Options) (strat : String) (it : AffEvent) :
    Option MigratedItem :=
  match processOne e opts strat it with
  | .ok mi => some mi
  | .error _ => none

/-- The per-event error entry of the migration preview, as an optional
value (`none` when processing the event succeeds). -/
def migErr (e : Ephemeris) (opts : Options) (strat : String) (it : AffEvent) :
    Option MigrateError :=
  match processOne e opts strat it with
  | .ok _ => none
  | .error msg => some { id := it.id, error := msg }

theorem migrate_foldl_char (e : Ephemeris) (opts : Options) (strat : String) :
    ∀ (l : List AffEvent) (acc : List MigratedItem × List MigrateError),
      l.foldl (fun acc item =>
        match processOne e opts strat item with
        | .ok mi => (acc.1 ++ [mi], acc.2)
        | .error msg => (acc.1, acc.2 ++ [{ id := item.id, error := msg }])) acc =
      (acc.1 ++ l.filterMap (migOk e opts strat),
       acc.2 ++ l.filterMap (migErr e opts strat)) := by
  intro l
  induction l with
  | nil => intro acc; simp
  | cons it l ih =>
    intro acc
    cases hp : processOne e opts strat it with
    | ok mi =>
      simp [List.foldl_cons, List.filterMap_cons, hp, migOk, migErr, ih]
    | error msg =>
      simp [List.foldl_cons, List.filterMap_cons, hp, migOk, migErr, ih]

theorem processOne_lengths (e : Ephemeris) (opts : Options) (strat : String) :
    ∀ l : List AffEvent,
      (l.filterMap (migOk e opts strat)).length +
        (l.filterMap (migErr e opts strat)).length = l.length
  | [] => by simp
  | it :: l => by
    have ih := processOne_lengths e opts strat l
    simp only [List.filterMap_cons]
    cases hp : processOne e opts strat it with
    | ok mi =>
      simp [migOk, migErr, hp]
      omega
    | error msg =>
      simp [migOk, migErr, hp]
      omega

end MoonCalendar

namespace MoonCalendar

/-- C9: under the default remap strategy the migration preview
processes every event independently (migrated + errors account for
every input event, a throwing event yields exactly its own error entry
and no abort), and each successful event's proposed date follows the
fallback chain — exact `(displayMonthNumber, isLeap)` match first, then
`displayMonthNumber` alone, then the original date unchanged. -/
theorem migration_per_event (e : Ephemeris) (opts : Options) (items : List AffEvent)
    (hs : opts.strategy.getD "remapToSameLunarIndex" = "remapToSameLunarIndex") :
    ((previewMigrateAffirmations e items opts).1.length +
      (previewMigrateAffirmations e items opts).2.length = items.length) ∧
    previewMigrateAffirmations e items opts =
      (items.filterMap (migOk e opts "remapToSameLunarIndex"),
       items.filterMap (migErr e opts "remapToSameLunarIndex")) ∧
    (∀ (it : AffEvent) (msg : String),
      processOne e opts "remapToSameLunarIndex" it = .error msg →
      migErr e opts "remapToSameLunarIndex" it = some { id := it.id, error := msg } ∧
      migOk e opts "remapToSameLunarIndex" it = none) ∧
    (∀ (it : AffEvent) (old : LunisolarDate) (ny : LunisolarYear),
      toLunisolar e it.date opts = .ok old →
      computeLunisolarYear e (dateUTCms old.lunarYear 2 20) opts = .ok ny →
      (∀ mth, firstMatch (fun mo => mo.displayMonthNumber == old.monthNumber &&
            mo.isLeap == old.isLeap) ny.months = some mth →
        processOne e opts "remapToSameLunarIndex" it = .ok
          { id := it.id, originalDate := it.date,
            proposedDate := mth.start + (old.monthDay - 1) * 86400000, lunarInfo := old }) ∧
      (firstMatch (fun mo => mo.displayMonthNumber == old.monthNumber &&
            mo.isLeap == old.isLeap) ny.months = none →
        (∀ mth, firstMatch (fun mo => mo.displayMonthNumber == old.monthNumber) ny.months =
            some mth →
          processOne e opts "remapToSameLunarIndex" it = .ok
            { id := it.id, originalDate := it.date,
              proposedDate := mth.start + (old.monthDay - 1) * 86400000,
              lunarInfo := old }) ∧
        (firstMatch (fun mo => mo.displayMonthNumber == old.monthNumber) ny.months = none →
          processOne e opts "remapToSameLunarIndex" it = .ok
            { id := it.id, originalDate := it.date, proposedDate := it.date,
              lunarInfo := old }))) := by
  have hchar : previewMigrateAffirmations e items opts =
      (items.filterMap (migOk e opts "remapToSameLunarIndex"),
       items.filterMap (migErr e opts "remapToSameLunarIndex")) := by
    simp only [previewMigrateAffirmations, hs]
    rw [migrate_foldl_char e opts "remapToSameLunarIndex" items ([], [])]
    simp
  refine ⟨?_, hchar, ?_, ?_⟩
  · rw [hchar]
    exact processOne_lengths e opts "remapToSameLunarIndex" items
  · intro it msg hp
    constructor
    · simp [migErr, hp]
    · simp [migOk, hp]
  · intro it old ny h7 h8
    refine ⟨?_, ?_⟩
    · intro mth hm
      unfold processOne
      rw [h7]
      simp only [if_neg (by decide : ¬("remapToSameLunarIndex" = "keepAbsolute"))]
      rw [h8]
      simp [hm]
    · intro hn
      refine ⟨?_, ?_⟩
      · intro mth hm
        unfold processOne
        rw [h7]
        simp only [if_neg (by decide : ¬("remapToSameLunarIndex" = "keepAbsolute"))]
        rw [h8]
        simp [hn, hm]
      · intro hn2
        unfold processOne
        rw [h7]
        simp only [if_neg (by decide : ¬("remapToSameLunarIndex" = "keepAbsolute"))]
        rw [h8]
        simp [hn, hn2]

end MoonCalendar

namespace MoonCalendar

/-- Witness for C9: a batch of three events under the truncated moon
stream — the middle event (year 2100, outside the ephemeris coverage)
throws, the other two are migrated. -/
theorem migration_per_event_witness :
    ((previewMigrateAffirmations eLim
        [⟨some "a", 1721001600000⟩, ⟨some "b", 4116700800000⟩, ⟨some "c", 1712275200000⟩]
        defaultOptions).1.length +
      (previewMigrateAffirmations eLim
        [⟨some "a", 1721001600000⟩, ⟨some "b", 4116700800000⟩, ⟨some "c", 1712275200000⟩]
        defaultOptions).2.length =
      ([⟨some "a", 1721001600000⟩, ⟨some "b", 4116700800000⟩,
        ⟨some "c", 1712275200000⟩] : List AffEvent).length) ∧
    previewMigrateAffirmations eLim
        [⟨some "a", 1721001600000⟩, ⟨some "b", 4116700800000⟩, ⟨some "c", 1712275200000⟩]
        defaultOptions =
      (([⟨some "a", 1721001600000⟩, ⟨some "b", 4116700800000⟩,
          ⟨some "c", 1712275200000⟩] : List AffEvent).filterMap
        (migOk eLim defaultOptions "remapToSameLunarIndex"),
       ([⟨some "a", 1721001600000⟩, ⟨some "b", 4116700800000⟩,
          ⟨some "c", 1712275200000⟩] : List AffEvent).filterMap
        (migErr eLim defaultOptions "remapToSameLunarIndex")) ∧
    (∀ (it : AffEvent) (msg : String),
      processOne eLim defaultOptions "remapToSameLunarIndex" it = .error msg →
      migErr eLim defaultOptions "remapToSameLunarIndex" it =
        some { id := it.id, error := msg } ∧
      migOk eLim defaultOptions "remapToSameLunarIndex" it = none) ∧
    (∀ (it : AffEvent) (old : LunisolarDate) (ny : LunisolarYear),
      toLunisolar eLim it.date defaultOptions = .ok old →
      computeLunisolarYear eLim (dateUTCms old.lunarYear 2 20) defaultOptions = .ok ny →
      (∀ mth, firstMatch (fun mo => mo.displayMonthNumber == old.monthNumber &&
            mo.isLeap == old.isLeap) ny.months = some mth →
        processOne eLim defaultOptions "remapToSameLunarIndex" it = .ok
          { id := it.id, originalDate := it.date,
            proposedDate := mth.start + (old.monthDay - 1) * 86400000, lunarInfo := old }) ∧
      (firstMatch (fun mo => mo.displayMonthNumber == old.monthNumber &&
            mo.isLeap == old.isLeap) ny.months = none →
        (∀ mth, firstMatch (fun mo => mo.displayMonthNumber == old.monthNumber) ny.months =
            some mth →
          processOne eLim defaultOptions "remapToSameLunarIndex" it = .ok
            { id := it.id, originalDate := it.date,
              proposedDate := mth.start + (old.monthDay - 1) * 86400000,
              lunarInfo := old }) ∧
        (firstMatch (fun mo => mo.displayMonthNumber == old.monthNumber) ny.months = none →
          processOne eLim defaultOptions "remapToSameLunarIndex" it = .ok
            { id := it.id, originalDate := it.date, proposedDate := it.date,
              lunarInfo := old }))) :=
  migration_per_event eLim defaultOptions
    [⟨some "a", 1721001600000⟩, ⟨some "b", 4116700800000⟩, ⟨some "c", 1712275200000⟩]
    (by rfl)

end MoonCalendar
